import Mathlib

/-!
A verification development for the `translate-meta` batch-translation script.
The script reads per-item metadata files (`name` + `description`), detects the
source language of each record, translates it into a fixed set of target
languages through a chat-completion backend, and writes enriched output
records.  The definitions below are a shallow embedding of that script:
strings are lists of Unicode scalar values, the backend and the environment
are explicit parameters, and every fallible step returns an explicit result.
-/

namespace TranslateMeta

/-! ## Character classes used by `detectLanguage` -/

/-- The code-point ranges of Unicode general category P (all punctuation
subcategories), as matched by the character-class escape for punctuation with
the `u` flag in the host regex engine (Unicode 14.0 tables). -/
def punctRanges : List (Nat × Nat) := [
  (0x21, 0x23), (0x25, 0x2a), (0x2c, 0x2f), (0x3a, 0x3b), (0x3f, 0x40), (0x5b, 0x5d),
  (0x5f, 0x5f), (0x7b, 0x7b), (0x7d, 0x7d), (0xa1, 0xa1), (0xa7, 0xa7), (0xab, 0xab),
  (0xb6, 0xb7), (0xbb, 0xbb), (0xbf, 0xbf), (0x37e, 0x37e), (0x387, 0x387), (0x55a, 0x55f),
  (0x589, 0x58a), (0x5be, 0x5be), (0x5c0, 0x5c0), (0x5c3, 0x5c3), (0x5c6, 0x5c6), (0x5f3, 0x5f4),
  (0x609, 0x60a), (0x60c, 0x60d), (0x61b, 0x61b), (0x61d, 0x61f), (0x66a, 0x66d), (0x6d4, 0x6d4),
  (0x700, 0x70d), (0x7f7, 0x7f9), (0x830, 0x83e), (0x85e, 0x85e), (0x964, 0x965), (0x970, 0x970),
  (0x9fd, 0x9fd), (0xa76, 0xa76), (0xaf0, 0xaf0), (0xc77, 0xc77), (0xc84, 0xc84), (0xdf4, 0xdf4),
  (0xe4f, 0xe4f), (0xe5a, 0xe5b), (0xf04, 0xf12), (0xf14, 0xf14), (0xf3a, 0xf3d), (0xf85, 0xf85),
  (0xfd0, 0xfd4), (0xfd9, 0xfda), (0x104a, 0x104f), (0x10fb, 0x10fb), (0x1360, 0x1368), (0x1400, 0x1400),
  (0x166e, 0x166e), (0x169b, 0x169c), (0x16eb, 0x16ed), (0x1735, 0x1736), (0x17d4, 0x17d6), (0x17d8, 0x17da),
  (0x1800, 0x180a), (0x1944, 0x1945), (0x1a1e, 0x1a1f), (0x1aa0, 0x1aa6), (0x1aa8, 0x1aad), (0x1b5a, 0x1b60),
  (0x1b7d, 0x1b7e), (0x1bfc, 0x1bff), (0x1c3b, 0x1c3f), (0x1c7e, 0x1c7f), (0x1cc0, 0x1cc7), (0x1cd3, 0x1cd3),
  (0x2010, 0x2027), (0x2030, 0x2043), (0x2045, 0x2051), (0x2053, 0x205e), (0x207d, 0x207e), (0x208d, 0x208e),
  (0x2308, 0x230b), (0x2329, 0x232a), (0x2768, 0x2775), (0x27c5, 0x27c6), (0x27e6, 0x27ef), (0x2983, 0x2998),
  (0x29d8, 0x29db), (0x29fc, 0x29fd), (0x2cf9, 0x2cfc), (0x2cfe, 0x2cff), (0x2d70, 0x2d70), (0x2e00, 0x2e2e),
  (0x2e30, 0x2e4f), (0x2e52, 0x2e5d), (0x3001, 0x3003), (0x3008, 0x3011), (0x3014, 0x301f), (0x3030, 0x3030),
  (0x303d, 0x303d), (0x30a0, 0x30a0), (0x30fb, 0x30fb), (0xa4fe, 0xa4ff), (0xa60d, 0xa60f), (0xa673, 0xa673),
  (0xa67e, 0xa67e), (0xa6f2, 0xa6f7), (0xa874, 0xa877), (0xa8ce, 0xa8cf), (0xa8f8, 0xa8fa), (0xa8fc, 0xa8fc),
  (0xa92e, 0xa92f), (0xa95f, 0xa95f), (0xa9c1, 0xa9cd), (0xa9de, 0xa9df), (0xaa5c, 0xaa5f), (0xaade, 0xaadf),
  (0xaaf0, 0xaaf1), (0xabeb, 0xabeb), (0xfd3e, 0xfd3f), (0xfe10, 0xfe19), (0xfe30, 0xfe52), (0xfe54, 0xfe61),
  (0xfe63, 0xfe63), (0xfe68, 0xfe68), (0xfe6a, 0xfe6b), (0xff01, 0xff03), (0xff05, 0xff0a), (0xff0c, 0xff0f),
  (0xff1a, 0xff1b), (0xff1f, 0xff20), (0xff3b, 0xff3d), (0xff3f, 0xff3f), (0xff5b, 0xff5b), (0xff5d, 0xff5d),
  (0xff5f, 0xff65), (0x10100, 0x10102), (0x1039f, 0x1039f), (0x103d0, 0x103d0), (0x1056f, 0x1056f), (0x10857, 0x10857),
  (0x1091f, 0x1091f), (0x1093f, 0x1093f), (0x10a50, 0x10a58), (0x10a7f, 0x10a7f), (0x10af0, 0x10af6), (0x10b39, 0x10b3f),
  (0x10b99, 0x10b9c), (0x10ead, 0x10ead), (0x10f55, 0x10f59), (0x10f86, 0x10f89), (0x11047, 0x1104d), (0x110bb, 0x110bc),
  (0x110be, 0x110c1), (0x11140, 0x11143), (0x11174, 0x11175), (0x111c5, 0x111c8), (0x111cd, 0x111cd), (0x111db, 0x111db),
  (0x111dd, 0x111df), (0x11238, 0x1123d), (0x112a9, 0x112a9), (0x1144b, 0x1144f), (0x1145a, 0x1145b), (0x1145d, 0x1145d),
  (0x114c6, 0x114c6), (0x115c1, 0x115d7), (0x11641, 0x11643), (0x11660, 0x1166c), (0x116b9, 0x116b9), (0x1173c, 0x1173e),
  (0x1183b, 0x1183b), (0x11944, 0x11946), (0x119e2, 0x119e2), (0x11a3f, 0x11a46), (0x11a9a, 0x11a9c), (0x11a9e, 0x11aa2),
  (0x11c41, 0x11c45), (0x11c70, 0x11c71), (0x11ef7, 0x11ef8), (0x11fff, 0x11fff), (0x12470, 0x12474), (0x12ff1, 0x12ff2),
  (0x16a6e, 0x16a6f), (0x16af5, 0x16af5), (0x16b37, 0x16b3b), (0x16b44, 0x16b44), (0x16e97, 0x16e9a), (0x16fe2, 0x16fe2),
  (0x1bc9f, 0x1bc9f), (0x1da87, 0x1da8b), (0x1e95e, 0x1e95f)]

/-- Category-P test: the punctuation part of the en-detection character class. -/
def isPunct (c : Char) : Bool :=
  punctRanges.any (fun r => r.1 <= c.toNat && c.toNat <= r.2)

/-- The whitespace class of the host regex engine (`\s`). -/
def isJsSpace (c : Char) : Bool :=
  let n := c.toNat
  n == 0x9 || n == 0xA || n == 0xB || n == 0xC || n == 0xD || n == 0x20 ||
  n == 0xA0 || n == 0x1680 || (0x2000 <= n && n <= 0x200A) || n == 0x2028 ||
  n == 0x2029 || n == 0x202F || n == 0x205F || n == 0x3000 || n == 0xFEFF

/-- ASCII letters and digits: the `a-zA-Z0-9` part of the en-detection class. -/
def isAsciiAlnum (c : Char) : Bool :=
  ('a' <= c && c <= 'z') || ('A' <= c && c <= 'Z') || ('0' <= c && c <= '9')

/-- One character of the en-detection character class
`[a-zA-Z0-9\s\p{P}]` (with the `u` flag). -/
def isEnChar (c : Char) : Bool :=
  isAsciiAlnum c || isJsSpace c || isPunct c

/-- The common Han range `[\u4e00-\u9fa5]` of the Chinese-detection regex. -/
def isHan (c : Char) : Bool :=
  0x4E00 <= c.toNat && c.toNat <= 0x9FA5

/-- The hand-picked traditional-only character class of the zh-TW regex,
kept verbatim from the source (duplicates included). -/
def tradChars : List Char :=
  "萬與醜專業叢東絲兩嚴喪個爿豐臨為麗舉愛練叢臺與".data

/-- Membership test for `tradChars`: the zh-TW regex applied to one character. -/
def isTrad (c : Char) : Bool :=
  tradChars.any (fun t => t == c)

/-- `detectLanguage`: first matching rule wins.  A text containing any char of
the common Han range is Chinese (zh-TW when it also contains a `tradChars`
character, zh-CN otherwise); otherwise a text made only of `isEnChar`
characters is en; otherwise auto. -/
def detectLanguage (text : String) : String :=
  if text.data.any isHan then
    if text.data.any isTrad then "zh-TW" else "zh-CN"
  else if text.data.all isEnChar then "en"
  else "auto"

/-! ## Data model -/

/-- A per-language output entry as it appears in the serialized output file.
The serializer omits a field whose value is `undefined`, so each field is an
`Option`: `none` means the field is absent from the written JSON object. -/
structure OutPair where
  name : Option String
  description : Option String
deriving DecidableEq, Inhabited

/-- A loaded metadata record.  The YAML parse is followed by an unchecked
cast, so an object document may lack either expected field: `none` models the
resulting `undefined`.  `extra` stands for any further fields of the
document, which are carried through to the output untouched. -/
structure MetaData where
  name : Option String := none
  description : Option String := none
  i18ns : Option (List (String × OutPair)) := none
  extra : List (String × String) := []
deriving DecidableEq, Inhabited

/-- Result of loading one input file: `invalid` when the YAML parse throws,
or the document is not an object (so that the later `i18ns` assignment or
field access throws); `record` when an object document was obtained. -/
inductive Content
  | invalid
  | record (data : MetaData)
deriving DecidableEq, Inhabited

/-- The ToString coercion the regex test applies to an `undefined` argument. -/
def jsStr : Option String → String
  | none => "undefined"
  | some s => s

/-- The request payload: the record's `title`/`description`, each possibly
`undefined` (dropped by the serializer when building the request body). -/
structure Pair where
  title : Option String
  description : Option String
deriving DecidableEq, Inhabited

/-- The fragment of the backend reply that the client reads: the inner JSON
object parsed from the first completion's message content.  Each expected key
may be absent from that object. -/
structure Reply where
  title : Option String
  description : Option String
deriving DecidableEq, Inhabited

/-- Outcome of one HTTP exchange, as far as the client observes it: the fetch
may throw, the response may be non-success, and on a success body the outer
JSON parse (with the extraction of the first completion's content) and the
inner parse of that content may each fail. -/
inductive FetchOutcome
  | netFail
  | httpFail (status : Nat) (body : String)
  | ok (outer : Option (Option Reply))
deriving DecidableEq, Inhabited

/-- The distinct failures `translateWithOpenAI` can raise. -/
inductive TransError
  | missingKey
  | unsupportedLang (lang : String)
  | network
  | http (status : Nat) (body : String)
  | parseOuter
  | parseInner
deriving DecidableEq

/-- Registered display names of the target languages (`languageMap`). -/
def languageMap : String → Option String
  | "zh-CN" => some "简体中文"
  | "zh-TW" => some "繁体中文"
  | "en" => some "英文"
  | _ => none

/-- The fixed target languages (`targetLangs`), in declaration order. -/
def targetLangs : List String := ["zh-CN", "zh-TW", "en"]

/-! ## Translation client -/

/-- `translateWithOpenAI`: checks the credential, then the display-name
registration, then performs the exchange; on a success response the outer
parse and the inner content parse must both succeed to yield a reply.  Every
failure is raised to the caller; none is handled here. -/
def translateWithOpenAI (apiKey : Option String) (lnf : String → Option String)
    (fetch : FetchOutcome) (_text : Pair) (targetLang : String) :
    Except TransError Reply :=
  match apiKey with
  | none => .error .missingKey
  | some _ =>
    match lnf targetLang with
    | none => .error (.unsupportedLang targetLang)
    | some _ =>
      match fetch with
      | .netFail => .error .network
      | .httpFail s b => .error (.http s b)
      | .ok none => .error .parseOuter
      | .ok (some none) => .error .parseInner
      | .ok (some (some r)) => .ok r

/-! ## Batch orchestrator -/

/-- The body of the per-language loop for one language: passthrough of the
source pair when the target equals the detected source; otherwise one client
call whose failure is caught and degrades to the source pair.  A reply
without `title` also degrades: the success log calls `substring` on the
translated name, which throws inside the same catch.  The Bool records
whether the client was invoked for this language. -/
def translateOne (apiKey : Option String) (lnf : String → Option String)
    (fetch : String → FetchOutcome) (data : MetaData) (sourceLang lang : String) :
    OutPair × Bool :=
  if lang = sourceLang then
    (⟨data.name, data.description⟩, false)
  else
    match translateWithOpenAI apiKey lnf (fetch lang) ⟨data.name, data.description⟩ lang with
    | .error _ => (⟨data.name, data.description⟩, true)
    | .ok r =>
      match r.title with
      | none => (⟨data.name, data.description⟩, true)
      | some n => (⟨some n, r.description⟩, true)

/-- Per-file processing: reset `i18ns` to a fresh table, detect the source
language from `name`, then fill the table over `targetLangs` in order.
Returns the enriched record and the list of languages for which the client
was invoked. -/
def processFile (apiKey : Option String) (lnf : String → Option String)
    (fetch : String → FetchOutcome) (data : MetaData) :
    MetaData × List String :=
  let sourceLang := detectLanguage (jsStr data.name)
  let entries := targetLangs.map
    (fun lang => (lang, translateOne apiKey lnf fetch data sourceLang lang))
  ({ data with i18ns := some (entries.map (fun e => (e.1, e.2.1))) },
   (entries.filter (fun e => e.2.2)).map (fun e => e.1))

/-- The input-file selection test `entry.name.endsWith(".yaml")`. -/
def endsWithYaml (nm : String) : Bool :=
  (".yaml").data.isSuffixOf nm.data

/-- First-occurrence string replacement: the semantics of
`String.prototype.replace` with a plain string pattern. -/
def replaceFirstL (pat rep : List Char) : List Char → List Char
  | [] => if pat.isPrefixOf ([] : List Char) then rep else []
  | c :: rest =>
    if pat.isPrefixOf (c :: rest) then rep ++ (c :: rest).drop pat.length
    else c :: replaceFirstL pat rep rest

/-- The output filename: the input filename with the first occurrence of
".yaml" replaced by ".json". -/
def outputName (nm : String) : String :=
  String.mk (replaceFirstL (".yaml").data (".json").data nm.data)

/-- The observable outcome of a run: the output files written (filename and
record, in order), the count of selected files, the client invocations made
(filename, language, in order), and the fatal error if one aborted the run. -/
structure RunResult where
  outputs : List (String × MetaData)
  fileCount : Nat
  calls : List (String × String)
  fatal : Option String
deriving DecidableEq, Inhabited

/-- The file loop of `translateMeta`, over a directory listing given as
filename/load-result pairs.  Non-`.yaml` entries are skipped; a selected file
whose load is `invalid` aborts the run fatally (outputs already written are
kept, nothing further is processed); otherwise the file is processed and its
output written before the next entry.  Per-language failures never reach this
level. -/
def runBatch (apiKey : Option String) (lnf : String → Option String)
    (fetch : String → String → FetchOutcome) :
    List (String × Content) → RunResult
  | [] => ⟨[], 0, [], none⟩
  | (nm, content) :: rest =>
    if endsWithYaml nm then
      match content with
      | .invalid => ⟨[], 1, [], some ("YAMLError: " ++ nm)⟩
      | .record data =>
        let pr := processFile apiKey lnf (fetch nm) data
        let r := runBatch apiKey lnf fetch rest
        ⟨(outputName nm, pr.1) :: r.outputs, r.fileCount + 1,
         pr.2.map (fun l => (nm, l)) ++ r.calls, r.fatal⟩
    else runBatch apiKey lnf fetch rest

/-- Process exit status of the whole script: 0 when `translateMeta` returns,
1 when the top-level catch receives an error. -/
def exitCode (r : RunResult) : Nat :=
  if r.fatal.isSome then 1 else 0

/-- The record carried by a load result (`default` is never reached on runs
whose selected files all loaded as records). -/
def contentData : Content → MetaData
  | .invalid => default
  | .record d => d

/-- A backend that answers every request with a parseable reply carrying only
the `title` key. -/
def fetchTitleOnly : String → FetchOutcome :=
  fun _ => .ok (some (some ⟨some "T", none⟩))

example :
    detectLanguage "Hello" = "en" ∧ detectLanguage "" = "en" ∧
    detectLanguage "示例小部件" = "zh-CN" ∧ detectLanguage "臺北" = "zh-TW" := by
  decide

example :
    runBatch none languageMap (fun _ _ => .netFail)
      [("a.yaml", .record ⟨some "Hello", some "World", none, []⟩)] =
    ⟨[("a.json", ⟨some "Hello", some "World",
        some [("zh-CN", ⟨some "Hello", some "World"⟩),
              ("zh-TW", ⟨some "Hello", some "World"⟩),
              ("en", ⟨some "Hello", some "World"⟩)], []⟩)],
      1, [("a.yaml", "zh-CN"), ("a.yaml", "zh-TW")], none⟩ := by decide

example :
    (runBatch none languageMap (fun _ _ => .netFail)
      [("a.yaml", .record ⟨some "Hello", some "World", none, []⟩),
       ("bad.yaml", .invalid),
       ("c.yaml", .record ⟨some "x", some "y", none, []⟩)]).fatal =
    some "YAMLError: bad.yaml" := by decide

example : outputName "a.yaml.yaml" = "a.json.yaml" := by decide

/-! ## Helper lemmas -/

/-- When the target equals the detected source the loop body is pure
passthrough and the client is not invoked. -/
theorem translateOne_self (apiKey : Option String) (lnf : String → Option String)
    (fetch : String → FetchOutcome) (data : MetaData) (sourceLang : String) :
    translateOne apiKey lnf fetch data sourceLang sourceLang =
      (⟨data.name, data.description⟩, false) := by
  simp [translateOne]

/-- A failing client call degrades the entry to the source pair. -/
theorem translateOne_error (apiKey : Option String) (lnf : String → Option String)
    (fetch : String → FetchOutcome) (data : MetaData) (sourceLang lang : String)
    (e : TransError) (hne : lang ≠ sourceLang)
    (hfail : translateWithOpenAI apiKey lnf (fetch lang)
      ⟨data.name, data.description⟩ lang = .error e) :
    translateOne apiKey lnf fetch data sourceLang lang =
      (⟨data.name, data.description⟩, true) := by
  simp [translateOne, hne, hfail]

/-- Inversion of a successful client call: the credential and the display
name are registered and the exchange returned a doubly-parseable body. -/
theorem translateWithOpenAI_ok (apiKey : Option String) (lnf : String → Option String)
    (fetch : FetchOutcome) (text : Pair) (lang : String) (r : Reply)
    (h : translateWithOpenAI apiKey lnf fetch text lang = .ok r) :
    apiKey ≠ none ∧ lnf lang ≠ none ∧ fetch = .ok (some (some r)) := by
  unfold translateWithOpenAI at h
  cases apiKey with
  | none => simp at h
  | some k =>
    cases hl : lnf lang with
    | none => rw [hl] at h; simp at h
    | some n =>
      rw [hl] at h
      cases fetch with
      | netFail => simp at h
      | httpFail s b => simp at h
      | ok outer =>
        match outer with
        | none => simp at h
        | some none => simp at h
        | some (some r') =>
          simp only [Except.ok.injEq] at h
          exact ⟨by simp, by simp [hl], by rw [h]⟩

/-- The fresh `i18ns` table, entry by entry. -/
theorem processFile_i18ns (apiKey : Option String) (lnf : String → Option String)
    (fetch : String → FetchOutcome) (data : MetaData) :
    (processFile apiKey lnf fetch data).1.i18ns =
      some [("zh-CN", (translateOne apiKey lnf fetch data
                (detectLanguage (jsStr data.name)) "zh-CN").1),
            ("zh-TW", (translateOne apiKey lnf fetch data
                (detectLanguage (jsStr data.name)) "zh-TW").1),
            ("en", (translateOne apiKey lnf fetch data
                (detectLanguage (jsStr data.name)) "en").1)] := rfl

/-- Looking a target language up in the fresh table yields that language's
loop-body result. -/
theorem lookup_i18ns (apiKey : Option String) (lnf : String → Option String)
    (fetch : String → FetchOutcome) (data : MetaData) (lang : String)
    (hl : lang ∈ targetLangs) :
    List.lookup lang (((processFile apiKey lnf fetch data).1.i18ns).getD []) =
      some (translateOne apiKey lnf fetch data
        (detectLanguage (jsStr data.name)) lang).1 := by
  simp only [targetLangs, List.mem_cons, List.not_mem_nil, or_false] at hl
  rcases hl with rfl | rfl | rfl <;>
    simp [processFile_i18ns, List.lookup]

/-- Only languages different from the detected source ever reach the client. -/
theorem calls_ne_source (apiKey : Option String) (lnf : String → Option String)
    (fetch : String → FetchOutcome) (data : MetaData) (lang : String)
    (h : lang ∈ (processFile apiKey lnf fetch data).2) :
    lang ≠ detectLanguage (jsStr data.name) := by
  unfold processFile at h
  simp only [List.mem_map, List.mem_filter] at h
  obtain ⟨e, ⟨⟨l, hl, rfl⟩, hflag⟩, rfl⟩ := h
  intro hEq
  dsimp only at hEq hflag
  rw [hEq, translateOne_self] at hflag
  simp at hflag

/-- A batch whose selected files all loaded as records completes without a
fatal error, writing one output per selected file, in order. -/
theorem runBatch_ok (apiKey : Option String) (lnf : String → Option String)
    (fetch : String → String → FetchOutcome) (files : List (String × Content))
    (h : ∀ p ∈ files, endsWithYaml p.1 = true → p.2 ≠ Content.invalid) :
    (runBatch apiKey lnf fetch files).fatal = none ∧
    (runBatch apiKey lnf fetch files).outputs =
      (files.filter (fun p => endsWithYaml p.1)).map
        (fun p => (outputName p.1,
          (processFile apiKey lnf (fetch p.1) (contentData p.2)).1)) := by
  induction files with
  | nil => exact ⟨rfl, rfl⟩
  | cons p rest ih =>
    obtain ⟨nm, content⟩ := p
    have hrest := ih (fun q hq => h q (List.mem_cons_of_mem _ hq))
    by_cases hsel : endsWithYaml nm = true
    · cases content with
      | invalid =>
        exact absurd rfl (h (nm, Content.invalid) (List.mem_cons_self _ _) hsel)
      | record d =>
        constructor
        · simpa [runBatch, hsel] using hrest.1
        · simpa [runBatch, hsel, contentData] using hrest.2
    · constructor
      · simpa [runBatch, hsel] using hrest.1
      · simpa [runBatch, hsel] using hrest.2

/-- Replacing the first occurrence of `pat` in `base ++ pat` when no
occurrence starts inside `base` rewrites exactly the trailing `pat`. -/
theorem replaceFirstL_append (pat rep base : List Char)
    (h : ∀ p, p < base.length → pat.isPrefixOf ((base ++ pat).drop p) = false) :
    replaceFirstL pat rep (base ++ pat) = base ++ rep := by
  induction base with
  | nil =>
    cases pat with
    | nil => rfl
    | cons c cs =>
      have hpre : (c :: cs).isPrefixOf (c :: cs) = true := by
        rw [List.isPrefixOf_iff_prefix]
      simp [replaceFirstL, hpre]
  | cons c bs ih =>
    have h0 : pat.isPrefixOf (c :: (bs ++ pat)) = false := by
      simpa using h 0 (by simp)
    have hstep : replaceFirstL pat rep ((c :: bs) ++ pat) =
        if pat.isPrefixOf (c :: (bs ++ pat)) then
          rep ++ (c :: (bs ++ pat)).drop pat.length
        else c :: replaceFirstL pat rep (bs ++ pat) := rfl
    rw [hstep, if_neg (by simp [h0]),
      ih (fun p hp => by simpa using h (p + 1) (by simpa using hp))]
    rfl

/-! ## The claims -/

/-- C3 counterexample: the text 中あ contains the Han character 中 and the
character あ, which is neither ASCII nor Han, yet `detectLanguage` classifies
it as zh-CN, not auto: the Chinese branch wins as soon as any Han character
is present. -/
theorem mixed_han_not_auto_cex :
    isHan '中' = true ∧ isHan 'あ' = false ∧ 128 ≤ 'あ'.toNat ∧
    detectLanguage "中あ" = "zh-CN" ∧ detectLanguage "中あ" ≠ "auto" := by
  decide

/-- C3 (amended): a text containing at least one character of the common Han
range is always classified zh-TW or zh-CN, never auto, whatever its other
characters are. -/
theorem han_never_auto (text : String) (h : text.data.any isHan = true) :
    detectLanguage text = "zh-TW" ∨ detectLanguage text = "zh-CN" := by
  cases ht : text.data.any isTrad
  · right; simp [detectLanguage, h, ht]
  · left; simp [detectLanguage, h, ht]

/-- C3 witness: the amended theorem applied to the mixed text 中あ. -/
theorem han_never_auto_witness :
    ("中あ".data.any isHan = true) ∧
    (detectLanguage "中あ" = "zh-TW" ∨ detectLanguage "中あ" = "zh-CN") :=
  ⟨by decide, han_never_auto "中あ" (by decide)⟩

/-- C4 counterexample: « (U+00AB) is a non-ASCII character and the text has
no Han character, so the claim demands auto; the code returns en, because
the punctuation class of the en regex is the full Unicode category P, not
just ASCII punctuation. -/
theorem en_unicode_punct_cex :
    ("«".data.any isHan = false) ∧ 128 ≤ '«'.toNat ∧
    detectLanguage "«" = "en" ∧ detectLanguage "«" ≠ "auto" := by
  decide

/-- C4 counterexample, converse direction: + is ASCII punctuation in the
colloquial sense but has Unicode category Sm, so all-ASCII text containing
it is classified auto, not en. -/
theorem en_ascii_symbol_cex :
    ("1+1".data.any isHan = false) ∧ ("1+1".data.all (fun c => c.toNat < 128)) = true ∧
    detectLanguage "1+1" = "auto" := by
  decide

/-- C4 (amended): for Han-free text, `detectLanguage` returns en exactly when
every character is an ASCII letter or digit, a regex-whitespace character, or
a Unicode category-P punctuation character (`isEnChar`); every other Han-free
text yields auto.  The empty string satisfies the class vacuously. -/
theorem detect_en_iff (text : String) (h : text.data.any isHan = false) :
    ((detectLanguage text = "en") ↔ text.data.all isEnChar = true) ∧
    (text.data.all isEnChar = false → detectLanguage text = "auto") := by
  cases hall : text.data.all isEnChar
  · exact ⟨by simp [detectLanguage, h, hall], fun _ => by simp [detectLanguage, h, hall]⟩
  · exact ⟨by simp [detectLanguage, h, hall], fun hfalse => Bool.noConfusion hfalse⟩

/-- C4 witness: the amended theorem applied to the en text "Hi!" and to the
empty string. -/
theorem detect_en_iff_witness :
    (("Hi!".data.any isHan = false) ∧
      ((detectLanguage "Hi!" = "en") ↔ "Hi!".data.all isEnChar = true)) ∧
    (("".data.any isHan = false) ∧
      ((detectLanguage "" = "en") ↔ "".data.all isEnChar = true)) :=
  ⟨⟨by decide, (detect_en_iff "Hi!" (by decide)).1⟩,
   ⟨by decide, (detect_en_iff "" (by decide)).1⟩⟩

/-- C5: every character of the hand-picked traditional-only set lies in the
common Han range tested first, so any text containing one of them enters the
Chinese branch and is classified zh-TW. -/
theorem trad_chars_zh_tw :
    (∀ c ∈ tradChars, isHan c = true) ∧
    (∀ text : String, text.data.any isTrad = true → detectLanguage text = "zh-TW") := by
  have hall : ∀ c ∈ tradChars, isHan c = true := by decide
  refine ⟨hall, fun text h => ?_⟩
  have hhan : text.data.any isHan = true := by
    rw [List.any_eq_true] at h ⊢
    obtain ⟨c, hc, htc⟩ := h
    rw [isTrad, List.any_eq_true] at htc
    obtain ⟨t, ht, hbeq⟩ := htc
    exact ⟨c, hc, eq_of_beq hbeq ▸ hall t ht⟩
  simp [detectLanguage, hhan, h]

/-- C5 witness: the theorem applied to the character 萬 and to the text 臺北,
which contains the traditional-only character 臺. -/
theorem trad_chars_zh_tw_witness :
    isHan '萬' = true ∧
    ("臺北".data.any isTrad = true) ∧ detectLanguage "臺北" = "zh-TW" :=
  ⟨trad_chars_zh_tw.1 '萬' (by decide), by decide,
   trad_chars_zh_tw.2 "臺北" (by decide)⟩

/-- C6 counterexample: the selected file f.yaml holds a valid-YAML object
document with a `description` but no `name`, so its content cannot be parsed
into the expected record shape (string fields `name` and `description`); the
claim demands that the whole run abort, but the cast is unchecked: the run
completes fatal-free with exit status 0 and still writes one output file. -/
theorem shape_error_not_fatal_cex :
    (runBatch none languageMap (fun _ _ => FetchOutcome.netFail)
        [("f.yaml", Content.record ⟨none, some "hi", none, []⟩)]).fatal = none ∧
    exitCode (runBatch none languageMap (fun _ _ => FetchOutcome.netFail)
        [("f.yaml", Content.record ⟨none, some "hi", none, []⟩)]) = 0 ∧
    (runBatch none languageMap (fun _ _ => FetchOutcome.netFail)
        [("f.yaml", Content.record ⟨none, some "hi", none, []⟩)]).outputs.length = 1 := by
  decide

/-- C6 (amended): the run aborts fatally (exit status 1) exactly when some
selected file's content fails YAML parsing or is not an object document; an
object document merely missing the expected string fields does not abort the
run. -/
theorem fatal_iff_invalid (apiKey : Option String) (lnf : String → Option String)
    (fetch : String → String → FetchOutcome) (files : List (String × Content)) :
    ((runBatch apiKey lnf fetch files).fatal ≠ none ↔
      ∃ p ∈ files, endsWithYaml p.1 = true ∧ p.2 = Content.invalid) ∧
    (exitCode (runBatch apiKey lnf fetch files) = 1 ↔
      (runBatch apiKey lnf fetch files).fatal ≠ none) := by
  constructor
  · induction files with
    | nil => simp [runBatch]
    | cons p rest ih =>
      obtain ⟨nm, content⟩ := p
      by_cases hsel : endsWithYaml nm = true
      · cases content with
        | invalid =>
          simp only [runBatch, hsel, if_true]
          exact iff_of_true (by simp) ⟨(nm, .invalid), List.mem_cons_self _ _, hsel, rfl⟩
        | record d =>
          simp only [runBatch, hsel, if_true]
          rw [ih]
          constructor
          · intro ⟨p, hp, h1, h2⟩
            exact ⟨p, List.mem_cons_of_mem _ hp, h1, h2⟩
          · rintro ⟨p, hp, h1, h2⟩
            rcases List.mem_cons.mp hp with rfl | hp'
            · exact absurd h2 (by simp)
            · exact ⟨p, hp', h1, h2⟩
      · simp only [runBatch, hsel, Bool.false_eq_true, if_false]
        rw [ih]
        constructor
        · intro ⟨p, hp, h1, h2⟩
          exact ⟨p, List.mem_cons_of_mem _ hp, h1, h2⟩
        · rintro ⟨p, hp, h1, h2⟩
          rcases List.mem_cons.mp hp with rfl | hp'
          · exact absurd h1 hsel
          · exact ⟨p, hp', h1, h2⟩
  · unfold exitCode
    cases hf : (runBatch apiKey lnf fetch files).fatal <;> simp [hf]

/-- C7 counterexample: the selected filename a.yaml.yaml contains ".yaml"
before its final extension; `replace` rewrites the first occurrence, so the
output filename is a.json.yaml, not the claimed a.yaml.json. -/
theorem output_name_cex :
    endsWithYaml "a.yaml.yaml" = true ∧
    outputName "a.yaml.yaml" = "a.json.yaml" ∧
    outputName "a.yaml.yaml" ≠ "a.yaml.json" := by
  decide

/-- C7 (amended): the output filename is the input filename with the first
occurrence of ".yaml" replaced by ".json"; whenever no occurrence of ".yaml"
starts before the trailing extension, this coincides with changing the
extension while keeping the basename. -/
theorem output_name_extension (base : List Char)
    (h : ∀ p, p < base.length →
      ((".yaml").data.isPrefixOf ((base ++ (".yaml").data).drop p)) = false) :
    endsWithYaml (String.mk (base ++ (".yaml").data)) = true ∧
    outputName (String.mk (base ++ (".yaml").data)) =
      String.mk (base ++ (".json").data) := by
  constructor
  · rw [endsWithYaml, List.isSuffixOf_iff_suffix]
    exact List.suffix_append base (".yaml").data
  · show String.mk (replaceFirstL (".yaml").data (".json").data (base ++ (".yaml").data)) = _
    rw [replaceFirstL_append _ _ _ h]

/-- C7 witness: the amended theorem applied to the filename widget.yaml. -/
theorem output_name_extension_witness :
    endsWithYaml "widget.yaml" = true ∧ outputName "widget.yaml" = "widget.json" :=
  output_name_extension "widget".data (by decide)

/-- C1: for a batch whose selected files all loaded as records, a failing
client call for one file/language pair (any failure: missing credential,
unregistered display name, network error, non-success status, or either
parse step) is caught: the run exits 0, the file's output is still written,
that pair's entry is the original source pair, and every file's output is
exactly its normal per-file processing result. -/
theorem degradation_law (apiKey : Option String) (lnf : String → Option String)
    (fetch : String → String → FetchOutcome) (files : List (String × Content))
    (file : String) (data : MetaData) (nm ds lang : String) (e : TransError)
    (hok : ∀ p ∈ files, endsWithYaml p.1 = true → p.2 ≠ Content.invalid)
    (hmem : (file, Content.record data) ∈ files) (hsel : endsWithYaml file = true)
    (hn : data.name = some nm) (hd : data.description = some ds)
    (hl : lang ∈ targetLangs) (hne : lang ≠ detectLanguage nm)
    (hfail : translateWithOpenAI apiKey lnf (fetch file lang)
      ⟨data.name, data.description⟩ lang = Except.error e) :
    exitCode (runBatch apiKey lnf fetch files) = 0 ∧
    (outputName file, (processFile apiKey lnf (fetch file) data).1) ∈
      (runBatch apiKey lnf fetch files).outputs ∧
    List.lookup lang (((processFile apiKey lnf (fetch file) data).1.i18ns).getD []) =
      some ⟨some nm, some ds⟩ ∧
    (runBatch apiKey lnf fetch files).outputs =
      (files.filter (fun p => endsWithYaml p.1)).map
        (fun p => (outputName p.1,
          (processFile apiKey lnf (fetch p.1) (contentData p.2)).1)) := by
  obtain ⟨hfatal, houts⟩ := runBatch_ok apiKey lnf fetch files hok
  have hj : jsStr data.name = nm := by rw [hn]; rfl
  refine ⟨by simp [exitCode, hfatal], ?_, ?_, houts⟩
  · rw [houts]
    exact List.mem_map.mpr
      ⟨(file, Content.record data), List.mem_filter.mpr ⟨hmem, hsel⟩, rfl⟩
  · rw [lookup_i18ns apiKey lnf (fetch file) data lang hl, hj,
      translateOne_error apiKey lnf (fetch file) data _ lang e hne hfail]
    simp [hn, hd]

/-- C1 witness: a one-file batch with no credential; the zh-CN call fails
with the configuration error, degrades to the source pair, and the run
exits 0. -/
theorem degradation_law_witness :
    exitCode (runBatch none languageMap (fun _ _ => FetchOutcome.netFail)
        [("a.yaml", Content.record ⟨some "Hello", some "World", none, []⟩)]) = 0 ∧
    (outputName "a.yaml",
      (processFile none languageMap ((fun _ _ => FetchOutcome.netFail) "a.yaml")
        ⟨some "Hello", some "World", none, []⟩).1) ∈
      (runBatch none languageMap (fun _ _ => FetchOutcome.netFail)
        [("a.yaml", Content.record ⟨some "Hello", some "World", none, []⟩)]).outputs ∧
    List.lookup "zh-CN"
        (((processFile none languageMap ((fun _ _ => FetchOutcome.netFail) "a.yaml")
          ⟨some "Hello", some "World", none, []⟩).1.i18ns).getD []) =
      some ⟨some "Hello", some "World"⟩ ∧
    (runBatch none languageMap (fun _ _ => FetchOutcome.netFail)
        [("a.yaml", Content.record ⟨some "Hello", some "World", none, []⟩)]).outputs =
      ([("a.yaml", Content.record ⟨some "Hello", some "World", none, []⟩)].filter
          (fun p => endsWithYaml p.1)).map
        (fun p => (outputName p.1,
          (processFile none languageMap ((fun _ _ => FetchOutcome.netFail) p.1)
            (contentData p.2)).1)) :=
  degradation_law none languageMap (fun _ _ => FetchOutcome.netFail)
    [("a.yaml", Content.record ⟨some "Hello", some "World", none, []⟩)]
    "a.yaml" ⟨some "Hello", some "World", none, []⟩ "Hello" "World" "zh-CN"
    TransError.missingKey (by decide) (by decide) (by decide) rfl rfl
    (by decide) (by decide) rfl

/-- C2: when the detected source language of a record is itself one of the
target languages, that language's entry in the fresh table is exactly the
original pair, and the client is never invoked for that language. -/
theorem passthrough_law (apiKey : Option String) (lnf : String → Option String)
    (fetch : String → FetchOutcome) (data : MetaData) (nm ds lang : String)
    (hn : data.name = some nm) (hd : data.description = some ds)
    (hl : lang ∈ targetLangs) (hsrc : detectLanguage nm = lang) :
    List.lookup lang (((processFile apiKey lnf fetch data).1.i18ns).getD []) =
      some ⟨some nm, some ds⟩ ∧
    lang ∉ (processFile apiKey lnf fetch data).2 := by
  have hj : jsStr data.name = nm := by rw [hn]; rfl
  constructor
  · rw [lookup_i18ns apiKey lnf fetch data lang hl, hj, hsrc, translateOne_self]
    simp [hn, hd]
  · intro hmem
    have := calls_ne_source apiKey lnf fetch data lang hmem
    rw [hj, hsrc] at this
    exact this rfl

/-- C2 witness: the record named "Hello" detects as en; the en entry is the
original pair and en is not among the invoked languages. -/
theorem passthrough_law_witness :
    List.lookup "en"
        (((processFile (some "k") languageMap (fun _ => FetchOutcome.netFail)
          ⟨some "Hello", some "World", none, []⟩).1.i18ns).getD []) =
      some ⟨some "Hello", some "World"⟩ ∧
    "en" ∉ (processFile (some "k") languageMap (fun _ => FetchOutcome.netFail)
      ⟨some "Hello", some "World", none, []⟩).2 :=
  passthrough_law (some "k") languageMap (fun _ => FetchOutcome.netFail)
    ⟨some "Hello", some "World", none, []⟩ "Hello" "World" "en"
    rfl rfl (by decide) (by decide)

/-- C8: the missing-credential error is lazy and non-fatal.  A run with no
selected file never consults the credential and completes cleanly with no
client call; a call attempted without a credential fails with exactly the
configuration error; yet a credential-less batch over record files still
exits 0; and each non-source entry of such a batch degrades to the original
source pair. -/
theorem lazy_credential :
    (∀ (apiKey : Option String) (lnf : String → Option String)
        (fetch : String → String → FetchOutcome) (files : List (String × Content)),
      (∀ p ∈ files, endsWithYaml p.1 = false) →
      runBatch apiKey lnf fetch files = ⟨[], 0, [], none⟩) ∧
    (∀ (lnf : String → Option String) (fetch : FetchOutcome) (text : Pair)
        (lang : String),
      translateWithOpenAI none lnf fetch text lang =
        Except.error TransError.missingKey) ∧
    (∀ (lnf : String → Option String) (fetch : String → String → FetchOutcome)
        (files : List (String × Content)),
      (∀ p ∈ files, endsWithYaml p.1 = true → p.2 ≠ Content.invalid) →
      exitCode (runBatch none lnf fetch files) = 0) ∧
    (∀ (lnf : String → Option String) (fetch : String → FetchOutcome)
        (data : MetaData) (lang : String),
      lang ∈ targetLangs → lang ≠ detectLanguage (jsStr data.name) →
      List.lookup lang (((processFile none lnf fetch data).1.i18ns).getD []) =
        some ⟨data.name, data.description⟩) := by
  refine ⟨?_, fun _ _ _ _ => rfl, ?_, ?_⟩
  · intro apiKey lnf fetch files h
    induction files with
    | nil => rfl
    | cons p rest ih =>
      obtain ⟨nm, content⟩ := p
      have hsel : endsWithYaml nm = false := h (nm, content) (List.mem_cons_self _ _)
      have := ih (fun q hq => h q (List.mem_cons_of_mem _ hq))
      simpa [runBatch, hsel] using this
  · intro lnf fetch files h
    simp [exitCode, (runBatch_ok none lnf fetch files h).1]
  · intro lnf fetch data lang hl hne
    rw [lookup_i18ns none lnf fetch data lang hl,
      translateOne_error none lnf fetch data _ lang TransError.missingKey hne rfl]

/-- C8 witness: each conjunct applied to a concrete run: a listing with no
yaml file, a bare client call, and a credential-less one-file batch. -/
theorem lazy_credential_witness :
    runBatch none languageMap (fun _ _ => FetchOutcome.netFail)
      [("notes.txt", Content.invalid)] = ⟨[], 0, [], none⟩ ∧
    translateWithOpenAI none languageMap FetchOutcome.netFail
      ⟨some "a", some "b"⟩ "en" = Except.error TransError.missingKey ∧
    exitCode (runBatch none languageMap (fun _ _ => FetchOutcome.netFail)
      [("a.yaml", Content.record ⟨some "Hello", some "World", none, []⟩)]) = 0 ∧
    List.lookup "zh-TW"
        (((processFile none languageMap (fun _ => FetchOutcome.netFail)
          ⟨some "Hello", some "World", none, []⟩).1.i18ns).getD []) =
      some ⟨some "Hello", some "World"⟩ :=
  ⟨lazy_credential.1 none languageMap (fun _ _ => FetchOutcome.netFail)
      [("notes.txt", Content.invalid)] (by decide),
   lazy_credential.2.1 languageMap FetchOutcome.netFail ⟨some "a", some "b"⟩ "en",
   lazy_credential.2.2.1 languageMap (fun _ _ => FetchOutcome.netFail)
      [("a.yaml", Content.record ⟨some "Hello", some "World", none, []⟩)] (by decide),
   lazy_credential.2.2.2 languageMap (fun _ => FetchOutcome.netFail)
      ⟨some "Hello", some "World", none, []⟩ "zh-TW" (by decide) (by decide)⟩

/-- C9 counterexample: the backend replies with a parseable object carrying
only `title`; the stored zh-CN entry is `name = "T"` with NO description
field (the serializer drops the undefined value), violating the both-fields
invariant. -/
theorem i18ns_missing_description_cex :
    List.lookup "zh-CN"
        (((processFile (some "k") languageMap fetchTitleOnly
          ⟨some "Hello", some "World", none, []⟩).1.i18ns).getD []) =
      some ⟨some "T", none⟩ := by
  decide

/-- Field analysis of one loop-body entry for a well-formed record: the
`name` field is always present, and `description` can only be absent when
the client returned a reply that carried a title and no description. -/
theorem translateOne_fields (apiKey : Option String) (lnf : String → Option String)
    (fetch : String → FetchOutcome) (data : MetaData) (nm ds l : String)
    (hn : data.name = some nm) (hd : data.description = some ds) :
    (translateOne apiKey lnf fetch data (detectLanguage nm) l).1.name ≠ none ∧
    ((translateOne apiKey lnf fetch data (detectLanguage nm) l).1.description = none →
      ∃ t, (translateOne apiKey lnf fetch data (detectLanguage nm) l).1.name = some t ∧
        fetch l = FetchOutcome.ok (some (some ⟨some t, none⟩)) ∧
        apiKey ≠ none ∧ lnf l ≠ none ∧ l ≠ detectLanguage nm) := by
  by_cases hls : l = detectLanguage nm
  · rw [hls, translateOne_self]
    exact ⟨by simp [hn], fun hdesc => absurd hdesc (by simp [hd])⟩
  · unfold translateOne
    rw [if_neg hls]
    cases htr : translateWithOpenAI apiKey lnf (fetch l)
        ⟨data.name, data.description⟩ l with
    | error e =>
      exact ⟨by simp [hn], fun hdesc => absurd hdesc (by simp [hd])⟩
    | ok r =>
      obtain ⟨rt, rd⟩ := r
      cases rt with
      | none =>
        exact ⟨by simp [hn], fun hdesc => absurd hdesc (by simp [hd])⟩
      | some t =>
        obtain ⟨hk, hlnf, hfetch⟩ := translateWithOpenAI_ok apiKey lnf (fetch l)
          ⟨data.name, data.description⟩ l ⟨some t, rd⟩ htr
        refine ⟨by simp, fun hdesc => ⟨t, rfl, ?_, hk, hlnf, hls⟩⟩
        dsimp only at hdesc
        rw [hfetch, hdesc]

/-- C9 (amended): for a well-formed record, every entry of the fresh table
has its `name` field present; the `description` field is present in every
case except when the backend's reply parses as JSON and supplies `title`
without `description` — then the entry keeps the translated name and the
description field is dropped. -/
theorem i18ns_fields_present (apiKey : Option String) (lnf : String → Option String)
    (fetch : String → FetchOutcome) (data : MetaData) (lang : String) (p : OutPair)
    (nm ds : String) (hn : data.name = some nm) (hd : data.description = some ds)
    (hmem : (lang, p) ∈ (((processFile apiKey lnf fetch data).1.i18ns).getD [])) :
    p.name ≠ none ∧
    (p.description = none →
      ∃ t, p.name = some t ∧
        fetch lang = FetchOutcome.ok (some (some ⟨some t, none⟩)) ∧
        apiKey ≠ none ∧ lnf lang ≠ none ∧ lang ≠ detectLanguage nm) := by
  have hj : jsStr data.name = nm := by rw [hn]; rfl
  rw [processFile_i18ns, hj] at hmem
  simp only [Option.getD_some, List.mem_cons, List.not_mem_nil, or_false,
    Prod.mk.injEq] at hmem
  rcases hmem with ⟨rfl, rfl⟩ | ⟨rfl, rfl⟩ | ⟨rfl, rfl⟩ <;>
    exact translateOne_fields apiKey lnf fetch data nm ds _ hn hd

/-- C9 witness: the amended theorem applied to the title-only backend; the
zh-CN entry indeed lost its description, and the inversion pins the reply. -/
theorem i18ns_fields_present_witness :
    (OutPair.mk (some "T") none).name ≠ none ∧
    ((OutPair.mk (some "T") none).description = none →
      ∃ t, (OutPair.mk (some "T") none).name = some t ∧
        fetchTitleOnly "zh-CN" = FetchOutcome.ok (some (some ⟨some t, none⟩)) ∧
        (some "k" : Option String) ≠ none ∧ languageMap "zh-CN" ≠ none ∧
        "zh-CN" ≠ detectLanguage "Hello") :=
  i18ns_fields_present (some "k") languageMap fetchTitleOnly
    ⟨some "Hello", some "World", none, []⟩ "zh-CN" ⟨some "T", none⟩
    "Hello" "World" rfl rfl (by decide)

/-- C10: the written record is the input record with only `i18ns` replaced:
`name`, `description` and all other fields are carried through unchanged,
the new table is keyed exactly by the target languages in order, and its
content is independent of whatever `i18ns` the input already had. -/
theorem frame_property (apiKey : Option String) (lnf : String → Option String)
    (fetch : String → FetchOutcome) (data : MetaData) :
    (processFile apiKey lnf fetch data).1.name = data.name ∧
    (processFile apiKey lnf fetch data).1.description = data.description ∧
    (processFile apiKey lnf fetch data).1.extra = data.extra ∧
    (((processFile apiKey lnf fetch data).1.i18ns).getD []).map Prod.fst =
      targetLangs ∧
    ∀ i18ns', (processFile apiKey lnf fetch { data with i18ns := i18ns' }).1.i18ns =
      (processFile apiKey lnf fetch data).1.i18ns :=
  ⟨rfl, rfl, rfl, rfl, fun _ => rfl⟩

end TranslateMeta
